import Mathlib

/-!
Shallow embedding of the CAN-frame converter in
`src/internal/converter/can/converter.go`.

The file holds two versions of the converter: a legacy one whose `Decode`
uses `encoding/json` (first half of the file) and the current one whose
`Decode` scans the document manually with `valyala/fastjson`
(second half, lines 158-332).  Both are embedded below over a common JSON
syntax tree; the byte-level JSON grammar both parsers accept is standard
JSON, so inputs are represented by their parse trees (a byte sequence that
is not valid JSON makes either `Decode` return its invalid-json error
before any of the logic modelled here runs).

External collaborators are modelled by their interfaces, exactly as the
converter uses them:
* `descriptor.Message` is used only through its ID (the table key) and
  `DecodeToMap(frame, result)`, which writes name/value pairs into the
  shared result map; it is modelled as a function from a frame to the
  written pairs (`Msg`).
* `valyala/fastjson`: `Object.Get` and `Value.Get` return nil for a
  missing key; the typed accessors `Value.Object`, `Value.Array` and
  `Value.Uint` read the receiver's type tag without a nil check, so
  calling one on the result of a failed `Get` is a nil-pointer panic
  (modelled by the `panics` outcome); `Value.GetStringBytes` checks for
  nil and returns a nil slice for a missing or non-string value.
  `Value.Uint` parses the raw number token as a base-10 unsigned integer
  (digits only, no sign/dot/exponent) and fails on overflow past the
  64-bit platform uint.
* `encoding/hex`: `hex.Decode` consumes hex-digit pairs and fails on a
  non-hex byte or an odd-length input.
* Go's `uint32(tid)` conversion truncates to the low 32 bits.

Machine integers are `Nat` with explicit `% 2^32` / bounds where the code
converts or the library checks.
-/

namespace EkuiperCan

/-- A parsed JSON document.  Number values carry their raw source token
(the form `fastjson` keeps them in: `Value.Uint` and friends re-parse the
token on demand).  Object fields keep document order, as both parsers do. -/
inductive Json where
  | null
  | bool (b : Bool)
  | num (tok : String)
  | str (s : String)
  | arr (elems : List Json)
  | obj (fields : List (String × Json))

/-- `fastjson.Object.Get`: the value of the first field with the given
key, or `none` when the key is missing. -/
def objGet (fields : List (String × Json)) (key : String) : Option Json :=
  match fields with
  | [] => none
  | (k, v) :: rest => if k = key then some v else objGet rest key

/-- `encoding/json` field lookup used by the legacy `Decode`: for a
duplicated key, `json.Unmarshal` processes every occurrence in order, so
the last one wins. -/
def objGetLast (fields : List (String × Json)) (key : String) : Option Json :=
  fields.foldl (fun acc kv => if kv.1 = key then some kv.2 else acc) none

/-- `fastjson.Value.Get` on a single key: nil-safe traversal; `none` for a
missing key or a non-object receiver. -/
def valueGet (v : Json) (key : String) : Option Json :=
  match v with
  | .obj fields => objGet fields key
  | _ => none

/-- `fastjson.Value.Object` applied to the (possibly nil) result of a
`Get`, as on lines 199, 234 of the source: `none` models the error return
for a value of another type.  A nil receiver is not represented here; the
caller (`Decode`) branches to its `panics` outcome before calling this. -/
def jObject : Json → Option (List (String × Json))
  | .obj fields => some fields
  | _ => none

/-- `fastjson.Value.Array`: the element list, or `none` (error) for a
value of another type. -/
def jArray : Json → Option (List Json)
  | .arr elems => some elems
  | _ => none

/-- `fastjson.Value.GetStringBytes()` applied to the result of a `Get`
(line 218): nil-safe, a nil slice (empty list) for a missing key or a
non-string value. -/
def getStringBytes : Option Json → List Char
  | some (.str s) => s.data
  | _ => []

/-- The base-10 unsigned-integer reading of a number token, as
`fastjson.Value.Uint` performs it on a 64-bit platform: digits only,
value below `2^64`; `none` is the parse error (sign, dot, exponent,
empty token or overflow). -/
def parseUint64 (s : List Char) : Option Nat :=
  if s ≠ [] ∧ s.all Char.isDigit then
    let n := s.foldl (fun acc c => acc * 10 + (c.toNat - 48)) 0
    if n < 2 ^ 64 then some n else none
  else none

/-- Outcome of `rawFrame.Get("id").Uint()` (line 213): a missing `id`
leaves `Get` returning nil and `Uint` dereferences it (panic); a
non-number value or an unparseable token is the error return. -/
inductive UintOut where
  | ok (n : Nat)
  | err
  | panics

/-- `Value.Uint` on the possibly-nil result of a `Get`. -/
def valueUint : Option Json → UintOut
  | none => .panics
  | some (.num tok) =>
    match parseUint64 tok.data with
    | some n => .ok n
    | none => .err
  | some _ => .err

/-- `encoding/hex` digit value: `0-9`, `a-f`, `A-F`. -/
def fromHexChar (c : Char) : Option Nat :=
  if '0' ≤ c ∧ c ≤ '9' then some (c.toNat - 48)
  else if 'a' ≤ c ∧ c ≤ 'f' then some (c.toNat - 87)
  else if 'A' ≤ c ∧ c ≤ 'F' then some (c.toNat - 55)
  else none

/-- `hex.Decode` (line 223): hex-digit pairs to bytes; `none` is the error
return for a non-hex byte (`InvalidByteError`) or a trailing odd byte
(`ErrLength`).  The caller discards any partially decoded prefix on
error, so only the success value is kept. -/
def hexDecode : List Char → Option (List Nat)
  | [] => some []
  | [_] => none
  | a :: b :: rest =>
    match fromHexChar a, fromHexChar b, hexDecode rest with
    | some x, some y, some tail => some ((x * 16 + y) :: tail)
    | _, _, _ => none

/-- A `can.Frame` as the converter fills it: the 32-bit ID (line 217) and
the fixed 8-byte payload.  (`Length` and `Flags` are never written by the
converter and stay zero for every frame, so they are omitted.) -/
structure Frame where
  id : Nat
  data : List Nat

/-- Go's `copy(dst, src)`: overwrites `dst`'s first `min |dst| |src|`
entries with `src`'s. -/
def goCopy (dst src : List Nat) : List Nat :=
  src.take dst.length ++ dst.drop src.length

/-- Line 227: `copy(pf.Frames[i].Data[:], decodedData)` into the
zero-initialised 8-byte array of a fresh `can.Frame`. -/
def frameData (decoded : List Nat) : List Nat :=
  goCopy (List.replicate 8 0) decoded

/-- A compiled `descriptor.Message`, seen through the only operation the
converter invokes, `DecodeToMap(frame, result)`: the name/value pairs it
writes into the shared result map for a given frame. -/
def Msg (α : Type) : Type := Frame → List (String × α)

/-- The converter's message table, `messages map[uint32]*descriptor.Message`. -/
def MessageTable (α : Type) : Type := Nat → Option (Msg α)

/-- Go map write `m[k] = v`: replace the entry if present, else add it. -/
def mapInsert {β : Type} (m : List (String × β)) (k : String) (v : β) : List (String × β) :=
  if m.any (fun p => p.1 = k) then m.map (fun p => if p.1 = k then (k, v) else p)
  else m ++ [(k, v)]

/-- The decoded-signals map being aggregated. -/
def SigMap (α : Type) : Type := List (String × α)

/-- The dispatch loop shared by both `Decode` versions (lines 68-75,
257-264): for each frame in order, look its ID up in the table; skip the
frame (after logging) when absent, else let the message write its signal
values into the shared result map. -/
def decodeDispatch {α : Type} (table : MessageTable α) : List Frame → SigMap α → SigMap α
  | [], acc => acc
  | f :: fs, acc =>
    match table f.id with
    | none => decodeDispatch table fs acc
    | some m => decodeDispatch table fs ((m f).foldl (fun a p => mapInsert a p.1 p.2) acc)

/-- Error returns of either `Decode`.  Each maps to one `fmt.Errorf` site;
the message text is not modelled, only which site fired. -/
inductive DecodeErr where
  | invalidJson
  | notObject
  | framesNotArray
  | idNotUint
  | dataNotHex
  | metaNotObject
  | noFrames
  | unmarshal

/-- Outcome of one `Decode` call: the returned signals map, an error
return, or a runtime panic (nil-pointer dereference inside `fastjson`,
reachable as documented on `valueUint`/`Decode`). -/
inductive DecodeResult (α : Type) where
  | ok (signals : SigMap α)
  | err (e : DecodeErr)
  | panics

/-- Whether the call returned normally with a result. -/
def DecodeResult.isOk {α : Type} : DecodeResult α → Bool
  | .ok _ => true
  | _ => false

/-- The frame-array loop of the fastjson `Decode` (lines 212-228),
element by element.  Per element: `rawFrame.Get("id").Uint()` (missing
`id` or non-object element: nil dereference panic; non-parseable value:
error return), truncate to `uint32`, then
`rawFrame.Get("data").GetStringBytes()` (missing or non-string `data`
yields a nil slice; the `err` the code tests on line 219 is the stale one
already known nil, so no error fires here), hex-decode it and copy into
the zeroed 8-byte payload. -/
inductive FramesOut where
  | ok (fs : List Frame)
  | err (e : DecodeErr)
  | panics

/-- See `FramesOut`. -/
def parseFrames : List Json → FramesOut
  | [] => .ok []
  | rf :: rest =>
    match valueUint (valueGet rf "id") with
    | .panics => .panics
    | .err => .err .idNotUint
    | .ok tid =>
      let tdata := getStringBytes (valueGet rf "data")
      match hexDecode tdata with
      | none => .err .dataNotHex
      | some decoded =>
        match parseFrames rest with
        | .ok fs => .ok (⟨tid % 2 ^ 32, frameData decoded⟩ :: fs)
        | .err e => .err e
        | .panics => .panics

/-- A `meta` entry retained by the fastjson `Decode` (lines 240-253).
`v.String()` on a string value yields its JSON form, quotes included. -/
inductive MetaVal where
  | num (tok : String)
  | str (jsonText : String)
  | bool (b : Bool)

/-- The `metaObj.Visit` loop: every field in document order (duplicates
included), keeping number, string and boolean values in the map and only
logging a warning for the rest.  `pf.Meta` is dropped by `Decode`, which
returns only the signals map. -/
def buildMeta (fields : List (String × Json)) : List (String × MetaVal) :=
  fields.foldl
    (fun acc kv =>
      match kv.2 with
      | .num tok => mapInsert acc kv.1 (.num tok)
      | .str s => mapInsert acc kv.1 (.str ("\x22" ++ s ++ "\x22"))
      | .bool b => mapInsert acc kv.1 (.bool b)
      | _ => acc)
    []

/-- The fastjson `Converter.Decode` (lines 192-266) on a parsed document.
Steps, in source order: top-level must be an object; `obj.Get("frames")`
then `.Array()` (missing key: nil dereference panic; non-array: error);
the frame loop; the dead `pf.Frames == nil` test (a slice from `make` is
never nil, so it cannot fire and is not represented); `obj.Get("meta")`
then `.Object()` (missing key: nil dereference panic; non-object: error);
the `Visit` loop whose output `pf.Meta` is discarded; finally the
dispatch loop over the message table. -/
def Decode {α : Type} (table : MessageTable α) (j : Json) : DecodeResult α :=
  match jObject j with
  | none => .err .notObject
  | some fields =>
    match objGet fields "frames" with
    | none => .panics
    | some framesVal =>
      match jArray framesVal with
      | none => .err .framesNotArray
      | some rawFrames =>
        match parseFrames rawFrames with
        | .panics => .panics
        | .err e => .err e
        | .ok frames =>
          match objGet fields "meta" with
          | none => .panics
          | some metaVal =>
            match jObject metaVal with
            | none => .err .metaNotObject
            | some metaFields =>
              let _pfMeta := buildMeta metaFields
              .ok (decodeDispatch table frames [])

/-- Outcome of `Converter.Encode`. -/
inductive EncodeResult where
  | ok (bytes : List Nat)
  | err (msg : String)
  | panics (msg : String)

/-- `Converter.Encode` (lines 187-190): the body is the IDE stub
`panic("implement me")`; no value or error is ever returned. -/
def Encode {α : Type} (_ : α) : EncodeResult :=
  .panics "implement me"

/-- The legacy `Converter.Decode` (lines 50-77): `json.Unmarshal` into
`packedFrames`, the `p.Frames == nil` test, then the shared dispatch
loop.  `json.Unmarshal` semantics for this target type: a top-level
`null` leaves the struct zeroed (so `Frames` stays nil); any other
non-object document is a type error; an absent or `null` `frames` field
leaves the nil slice; a `frames` value of another non-array type is a
type error; `meta` unmarshals into `map[string]interface{}`, so it must
be an object or `null` when present.  Decoding a frame element is
`can.Frame`'s own `UnmarshalJSON` (external, not in this repository), so
it is a parameter `frameOfJson`; an element error aborts `Unmarshal`. -/
def parseLegacyFrames (frameOfJson : Json → Option Frame) : List Json → Option (List Frame)
  | [] => some []
  | x :: rest =>
    match frameOfJson x, parseLegacyFrames frameOfJson rest with
    | some f, some fs => some (f :: fs)
    | _, _ => none

/-- See `parseLegacyFrames`. -/
def legacyDecode {α : Type} (frameOfJson : Json → Option Frame)
    (table : MessageTable α) (j : Json) : DecodeResult α :=
  match j with
  | .null => .err .noFrames
  | .obj fields =>
    match objGetLast fields "meta" with
    | some (.obj _) | some .null | none =>
      match objGetLast fields "frames" with
      | none => .err .noFrames
      | some .null => .err .noFrames
      | some (.arr elems) =>
        match parseLegacyFrames frameOfJson elems with
        | none => .err .unmarshal
        | some frames => .ok (decodeDispatch table frames [])
      | some _ => .err .unmarshal
    | some _ => .err .unmarshal
  | _ => .err .unmarshal

/-- `addMessageDb` (lines 321-332) after `generate.Compile`: the compiled
source's message slice is merged in order, inserting a message only when
its ID is not yet in the table. -/
def addMessageDb {α : Type} (mm : MessageTable α) (msgs : List (Nat × Msg α)) :
    MessageTable α :=
  msgs.foldl
    (fun acc im =>
      if (acc im.1).isSome then acc
      else fun x => if x = im.1 then some im.2 else acc x)
    mm

/-- The `NewConverter` build loop (lines 292-305): starting from the empty
map, merge each compiled source with `addMessageDb` in discovery order.
The file-system walk, read-buffer reuse and compile failures live outside
this model; a build that returns at all returns this table. -/
def buildTable {α : Type} (srcs : List (List (Nat × Msg α))) : MessageTable α :=
  srcs.foldl addMessageDb (fun _ => none)

/-- First-wins lookup over one compiled source's message slice. -/
def lookupFirst {α : Type} : List (Nat × Msg α) → Nat → Option (Msg α)
  | [], _ => none
  | (i, m) :: rest, j => if j = i then some m else lookupFirst rest j

/-- The spec's merge rule, stated from its words for comparison with the
code's `addMessageDb`: the schema for an ID is the one from the first
source that defines it, earlier sources shadowing later ones. -/
def firstDefined {α : Type} : List (List (Nat × Msg α)) → Nat → Option (Msg α)
  | [], _ => none
  | s :: rest, i =>
    match lookupFirst s i with
    | some m => some m
    | none => firstDefined rest i

/-- The fastjson `Decode` with the converter's state (its message table)
threaded explicitly: the table is read by the dispatch loop and never
written, so the call also returns the state it finishes with. -/
def decodeDispatchSt {α : Type} : MessageTable α → List Frame → SigMap α →
    SigMap α × MessageTable α
  | c, [], acc => (acc, c)
  | c, f :: fs, acc =>
    match c f.id with
    | none => decodeDispatchSt c fs acc
    | some m => decodeDispatchSt c fs ((m f).foldl (fun a p => mapInsert a p.1 p.2) acc)

/-- See `decodeDispatchSt`. -/
def DecodeSt {α : Type} (c : MessageTable α) (j : Json) : DecodeResult α × MessageTable α :=
  match jObject j with
  | none => (.err .notObject, c)
  | some fields =>
    match objGet fields "frames" with
    | none => (.panics, c)
    | some framesVal =>
      match jArray framesVal with
      | none => (.err .framesNotArray, c)
      | some rawFrames =>
        match parseFrames rawFrames with
        | .panics => (.panics, c)
        | .err e => (.err e, c)
        | .ok frames =>
          match objGet fields "meta" with
          | none => (.panics, c)
          | some metaVal =>
            match jObject metaVal with
            | none => (.err .metaNotObject, c)
            | some metaFields =>
              let _pfMeta := buildMeta metaFields
              let rc := decodeDispatchSt c frames []
              (.ok rc.1, rc.2)

/-! ### Concrete inputs and tables used by the theorems below -/

/-- The empty message table. -/
def noTable : MessageTable Nat := fun _ => none

/-- A table with one message at ID `0` that decodes to the signal `sig = 1`. -/
def sigTable : MessageTable Nat := fun i => if i = 0 then some (fun _ => [("sig", 1)]) else none

/-- The batch `\x7b"frames":[\x7b"id":<idTok>,"data":"<dataStr>"\x7d],"meta":\x7b\x7d\x7d`. -/
def singleFrameBatch (idTok dataStr : String) : Json :=
  .obj [("frames", .arr [.obj [("id", .num idTok), ("data", .str dataStr)]]), ("meta", .obj [])]

/-- `\x7b"frames":[\x7b"id":1,"data":"0102"\x7d]\x7d` — well formed, `meta` omitted. -/
def batchNoMeta : Json :=
  .obj [("frames", .arr [.obj [("id", .num "1"), ("data", .str "0102")]])]

/-- The same batch with `"meta":5` — `meta` present but not an object. -/
def batchMetaNumber : Json :=
  .obj [("frames", .arr [.obj [("id", .num "1"), ("data", .str "0102")]]), ("meta", .num "5")]

/-- `\x7b"meta":\x7b\x7d\x7d` — the `frames` key is absent. -/
def batchNoFrames : Json := .obj [("meta", .obj [])]

/-- `\x7b"frames":[],"meta":\x7b\x7d\x7d` — an empty `frames` array. -/
def batchEmptyFrames : Json := .obj [("frames", .arr []), ("meta", .obj [])]

/-- `\x7b"frames":[]\x7d` — used to separate the two `Decode` versions. -/
def framesOnlyBatch : Json := .obj [("frames", .arr [])]

/-- A frame element whose `data` is the number `123`, not a string. -/
def batchDataNumber : Json :=
  .obj [("frames", .arr [.obj [("id", .num "1"), ("data", .num "123")]]), ("meta", .obj [])]

/-- A frame element with no `data` field at all. -/
def batchDataMissing : Json :=
  .obj [("frames", .arr [.obj [("id", .num "1")]]), ("meta", .obj [])]

/-- A frame element whose `data` string has odd length. -/
def batchDataOdd : Json := singleFrameBatch "1" "abc"

/-- A frame element whose `data` string holds non-hex characters. -/
def batchDataNonHex : Json := singleFrameBatch "1" "zz"

/-- A frame whose `id`, `2^32`, does not fit in 32 bits. -/
def batchHugeId : Json := singleFrameBatch "4294967296" "01"

/-- A frame with an ID (7) that no table below knows. -/
def unknownFrame : Frame := ⟨7, List.replicate 8 0⟩

/-- The JSON element parsing to `unknownFrame`. -/
def rawUnknownFrame : Json := .obj [("id", .num "7"), ("data", .str "")]

/-- A stand-in for `can.Frame.UnmarshalJSON` (external library code) where
the legacy `Decode` is evaluated on batches with no frame elements, so the
element parser is never consulted. -/
def stubFrameOfJson : Json → Option Frame := fun _ => none

/-- Message used as the first definition of ID 5 in the merge theorems. -/
def msgA : Msg Nat := fun _ => [("a", 1)]

/-- Message used as the second definition of ID 5 in the merge theorems. -/
def msgB : Msg Nat := fun _ => [("b", 2)]

/-! ### Helper lemmas -/

/-- Unfolding `Decode` on a document with a `frames` array and an object
`meta`, given the frame loop's outcome. -/
theorem Decode_frames_meta {α : Type} (table : MessageTable α) (rawFrames : List Json)
    (metaFields : List (String × Json)) (frames : List Frame)
    (h : parseFrames rawFrames = .ok frames) :
    Decode table (.obj [("frames", .arr rawFrames), ("meta", .obj metaFields)])
      = .ok (decodeDispatch table frames []) := by
  simp [Decode, jObject, objGet, jArray, h]

/-- The frame loop on one element with a number `id` token that parses
and a string `data` field that hex-decodes. -/
theorem parseFrames_one_ok (idTok dataStr : String) (n : Nat) (decoded : List Nat)
    (hid : parseUint64 idTok.data = some n)
    (hhex : hexDecode dataStr.data = some decoded) :
    parseFrames [.obj [("id", .num idTok), ("data", .str dataStr)]]
      = .ok [⟨n % 2 ^ 32, frameData decoded⟩] := by
  simp [parseFrames, valueGet, objGet, valueUint, getStringBytes, hid, hhex]

/-- The frame loop on one element whose `id` token does not parse. -/
theorem parseFrames_one_badId (idTok dataStr : String)
    (hid : parseUint64 idTok.data = none) :
    parseFrames [.obj [("id", .num idTok), ("data", .str dataStr)]]
      = .err .idNotUint := by
  simp [parseFrames, valueGet, objGet, valueUint, hid]

/-- `Decode` on `singleFrameBatch`, in terms of the parsed id and data. -/
theorem Decode_singleFrame {α : Type} (table : MessageTable α) (idTok dataStr : String)
    (n : Nat) (decoded : List Nat)
    (hid : parseUint64 idTok.data = some n)
    (hhex : hexDecode dataStr.data = some decoded) :
    Decode table (singleFrameBatch idTok dataStr)
      = .ok (decodeDispatch table [⟨n % 2 ^ 32, frameData decoded⟩] []) := by
  unfold singleFrameBatch
  exact Decode_frames_meta table _ _ _ (parseFrames_one_ok idTok dataStr n decoded hid hhex)

/-- Skipping unknown-ID frames is the same as dropping them first. -/
theorem decodeDispatch_filter {α : Type} (table : MessageTable α) (fs : List Frame)
    (acc : SigMap α) :
    decodeDispatch table fs acc
      = decodeDispatch table (fs.filter fun f => (table f.id).isSome) acc := by
  induction fs generalizing acc with
  | nil => rfl
  | cons f fs ih =>
    cases h : table f.id with
    | none => simpa [decodeDispatch, h, List.filter_cons] using ih acc
    | some m => simp [decodeDispatch, h, List.filter_cons, ih]

/-- When no frame's ID is in the table, the dispatch loop is a no-op. -/
theorem decodeDispatch_all_unknown {α : Type} (table : MessageTable α) (fs : List Frame)
    (acc : SigMap α) (h : ∀ f ∈ fs, table f.id = none) :
    decodeDispatch table fs acc = acc := by
  induction fs with
  | nil => rfl
  | cons f fs ih =>
    have hf : table f.id = none := h f (by simp)
    rw [decodeDispatch, hf]
    exact ih fun g hg => h g (by simp [hg])

/-- The state-threaded dispatch loop returns the table it was given. -/
theorem decodeDispatchSt_eq {α : Type} (c : MessageTable α) (fs : List Frame)
    (acc : SigMap α) :
    decodeDispatchSt c fs acc = (decodeDispatch c fs acc, c) := by
  induction fs generalizing acc with
  | nil => rfl
  | cons f fs ih =>
    cases h : c f.id with
    | none => simp [decodeDispatchSt, decodeDispatch, h, ih]
    | some m => simp [decodeDispatchSt, decodeDispatch, h, ih]

/-- The state-threaded `Decode` computes the plain `Decode` and hands the
table back unchanged. -/
theorem DecodeSt_eq {α : Type} (c : MessageTable α) (j : Json) :
    DecodeSt c j = (Decode c j, c) := by
  unfold DecodeSt Decode
  repeat' split
  all_goals simp [decodeDispatchSt_eq]

/-- Pointwise reading of `addMessageDb`: an ID already in the table keeps
its entry; a new ID gets the first message with that ID in the source. -/
theorem addMessageDb_apply {α : Type} (msgs : List (Nat × Msg α)) (mm : MessageTable α)
    (i : Nat) :
    addMessageDb mm msgs i =
      match mm i with
      | some m => some m
      | none => lookupFirst msgs i := by
  induction msgs generalizing mm with
  | nil => cases h : mm i <;> simp [addMessageDb, lookupFirst, h]
  | cons im rest ih =>
    obtain ⟨j, m⟩ := im
    have step : addMessageDb mm ((j, m) :: rest)
        = addMessageDb (if (mm j).isSome then mm
            else fun x => if x = j then some m else mm x) rest := rfl
    rw [step, ih]
    cases hj : mm j with
    | some a =>
      simp only [hj, Option.isSome_some, if_true, lookupFirst]
      cases hi : mm i with
      | some b => simp
      | none =>
        have hij : ¬i = j := fun e => by rw [e, hj] at hi; cases hi
        simp [hij]
    | none =>
      simp only [hj, Option.isSome_none, Bool.false_eq_true, if_false, lookupFirst]
      by_cases hij : i = j
      · subst hij; simp [hj]
      · simp [hij]

/-- Pointwise reading of the whole build loop. -/
theorem buildTable_foldl {α : Type} (srcs : List (List (Nat × Msg α))) (mm : MessageTable α)
    (i : Nat) :
    srcs.foldl addMessageDb mm i =
      match mm i with
      | some m => some m
      | none => firstDefined srcs i := by
  induction srcs generalizing mm with
  | nil => cases h : mm i <;> simp [firstDefined, h]
  | cons s rest ih =>
    rw [List.foldl_cons, ih, addMessageDb_apply]
    simp only [firstDefined]
    cases h : mm i with
    | some a => rfl
    | none => cases hs : lookupFirst s i <;> rfl

/-- The copy into the zeroed payload: truncation and zero padding. -/
theorem frameData_eq (decoded : List Nat) :
    frameData decoded = decoded.take 8 ++ List.replicate (8 - decoded.length) 0 := by
  show decoded.take (List.replicate 8 (0 : Nat)).length
      ++ (List.replicate 8 (0 : Nat)).drop decoded.length = _
  rw [List.length_replicate, List.drop_replicate]

/-- The payload is always exactly 8 bytes long. -/
theorem frameData_length (decoded : List Nat) : (frameData decoded).length = 8 := by
  rw [frameData_eq]
  simp only [List.length_append, List.length_take, List.length_replicate]
  omega

/-- `Decode` on a document with a `frames` array and an object `meta`
when the frame loop fails. -/
theorem Decode_frames_meta_err {α : Type} (table : MessageTable α) (rawFrames : List Json)
    (metaFields : List (String × Json)) (e : DecodeErr)
    (h : parseFrames rawFrames = .err e) :
    Decode table (.obj [("frames", .arr rawFrames), ("meta", .obj metaFields)])
      = .err e := by
  simp [Decode, jObject, objGet, jArray, h]

/-! ### Claim theorems -/

/-- C1: the spec makes `meta` optional (absent: tolerated; present but
not an object: schema error).  The code honours only the second half: on
a batch with no `meta` key, `obj.Get("meta")` returns nil and
`Value.Object` dereferences it, so `Decode` panics instead of
succeeding; the `metaObj != nil` guard on line 238 (which shows the
tolerate-absent intent) is unreachable.  Evaluation of the embedded
`Decode` at the omitted-`meta` input and at a non-object `meta`. -/
theorem c1_meta_optional_eval :
    Decode noTable batchNoMeta = .panics ∧
    Decode noTable batchMetaNumber = .err .metaNotObject :=
  ⟨rfl, rfl⟩

/-- C2 counterexample: `Encode` does not return a "not implemented"
error value to the caller; its body is the stub `panic("implement me")`,
so the call panics instead of returning. -/
theorem c2_encode_counterexample :
    Encode (37 : Nat) = .panics "implement me" := rfl

/-- C2 (amended): for every input value, regardless of shape, `Encode`
fails — but by panicking with "implement me", never by returning an
error result (and never by a silent no-op). -/
theorem c2_encode_always_panics {α : Type} (x : α) :
    Encode x = .panics "implement me" := rfl

/-- Witness: the amended C2 theorem at the concrete input `true`. -/
theorem c2_encode_always_panics_witness :
    Encode true = .panics "implement me" :=
  c2_encode_always_panics true

/-- C3 counterexample: the batch with an empty `frames` array (and an
object `meta`) decodes successfully to the empty signal map — not the
schema error the claim requires.  The `pf.Frames == nil` test on line
229 cannot fire: the slice `make` produced on line 211 is never nil. -/
theorem c3_empty_frames_counterexample :
    Decode noTable batchEmptyFrames = .ok [] ∧
    (Decode noTable batchEmptyFrames).isOk = true :=
  ⟨rfl, rfl⟩

/-- C3 (amended): a batch whose `frames` key is absent does fail, though
by a nil-dereference panic in `obj.Get("frames").Array()` rather than by
the intended schema-error return; a batch with an empty `frames` array
is not treated like an absent one — `Decode` succeeds with an empty
result, for every message table. -/
theorem c3_frames_amended {α : Type} (table : MessageTable α) :
    Decode table batchNoFrames = .panics ∧
    Decode table batchEmptyFrames = .ok [] :=
  ⟨rfl, rfl⟩

/-- Witness: the amended C3 theorem at the empty table. -/
theorem c3_frames_amended_witness :
    Decode noTable batchNoFrames = .panics :=
  (c3_frames_amended noTable).1

/-- C4: the spec requires a schema error when a frame's `data` is
absent, not a string, of odd length, or non-hex.  The code delivers only
the last two: `GetStringBytes` maps an absent or non-string `data` to a
nil slice, and the `err` tested on line 219 is the stale one from the id
parse, so such frames silently decode with an all-zero payload.
Evaluations at the two inputs the claim says must fail but that succeed,
and at the two that do fail. -/
theorem c4_data_field_eval :
    Decode noTable batchDataNumber = .ok [] ∧
    Decode noTable batchDataMissing = .ok [] ∧
    Decode noTable batchDataOdd = .err .dataNotHex ∧
    Decode noTable batchDataNonHex = .err .dataNotHex :=
  ⟨rfl, rfl, rfl, rfl⟩

/-- C5 counterexample: the frame id `4294967296 = 2^32` does not fit in
32 bits, yet `Decode` returns no schema error: `Value.Uint` accepts any
value below `2^64` on a 64-bit platform, and the `uint32` conversion on
line 217 truncates, so the frame is dispatched with ID 0 and decodes the
ID-0 message's signal. -/
theorem c5_id_counterexample :
    Decode sigTable batchHugeId = .ok [("sig", 1)] ∧
    (Decode sigTable batchHugeId).isOk = true :=
  ⟨rfl, rfl⟩

/-- C5 (amended): the `id` field must parse as a non-negative base-10
integer below `2^64`, else `Decode` returns a schema error; the frame's
32-bit ID is the parsed value reduced modulo `2^32` (equal to it exactly
when the value fits in 32 bits, silently truncated when it does not). -/
theorem c5_id_amended {α : Type} (table : MessageTable α) (idTok : String) :
    (∀ n, parseUint64 idTok.data = some n →
      Decode table (singleFrameBatch idTok "01")
        = .ok (decodeDispatch table [⟨n % 2 ^ 32, frameData [1]⟩] [])) ∧
    (parseUint64 idTok.data = none →
      Decode table (singleFrameBatch idTok "01") = .err .idNotUint) := by
  constructor
  · intro n hid
    exact Decode_singleFrame table idTok "01" n [1] hid rfl
  · intro hid
    unfold singleFrameBatch
    exact Decode_frames_meta_err table _ _ _ (parseFrames_one_badId idTok "01" hid)

/-- Witness: the amended C5 theorem at the id token "4294967296", whose
parsed value reduces to frame ID 0. -/
theorem c5_id_amended_witness :
    Decode sigTable (singleFrameBatch "4294967296" "01")
      = .ok (decodeDispatch sigTable [⟨0, frameData [1]⟩] []) := by
  have h := (c5_id_amended sigTable "4294967296").1 4294967296 rfl
  simpa using h

/-- C6: a frame whose ID has no table entry is skipped without failing
the call: the dispatch loop over a frame list equals the loop over its
known-ID sublist (order preserved); when no ID is known the result map
is empty; and a successfully parsed batch always returns `ok` of the
dispatch result, so a call in which zero frames resolve to a known
schema still succeeds with an empty, non-error result. -/
theorem c6_unknown_id_skipped {α : Type} (table : MessageTable α) (frames : List Frame)
    (rawFrames : List Json) (metaFields : List (String × Json)) :
    decodeDispatch table frames []
      = decodeDispatch table (frames.filter fun f => (table f.id).isSome) [] ∧
    ((∀ f ∈ frames, table f.id = none) → decodeDispatch table frames [] = []) ∧
    (parseFrames rawFrames = .ok frames →
      Decode table (.obj [("frames", .arr rawFrames), ("meta", .obj metaFields)])
        = .ok (decodeDispatch table frames [])) :=
  ⟨decodeDispatch_filter table frames [],
   fun h => decodeDispatch_all_unknown table frames [] h,
   fun h => Decode_frames_meta table rawFrames metaFields frames h⟩

/-- Witness: C6 at a one-frame batch whose ID 7 is unknown to the empty
table: the dispatch result is empty and the call still succeeds. -/
theorem c6_unknown_id_skipped_witness :
    decodeDispatch noTable [unknownFrame] [] = [] ∧
    Decode noTable (.obj [("frames", .arr [rawUnknownFrame]), ("meta", .obj [])])
      = .ok (decodeDispatch noTable [unknownFrame] []) := by
  have h := c6_unknown_id_skipped noTable [unknownFrame] [rawUnknownFrame] []
  exact ⟨h.2.1 (fun f _ => rfl), h.2.2 rfl⟩

/-- C7: merging compiled DBC sources in discovery order, the table entry
for a Message ID defined in more than one source is the schema from the
first source that defined it; later definitions are silently discarded
with no error. -/
theorem c7_first_source_wins {α : Type} (srcs : List (List (Nat × Msg α))) (i : Nat)
    (m : Msg α) (h : firstDefined srcs i = some m) :
    buildTable srcs i = some m := by
  have h2 := buildTable_foldl srcs (fun _ => none) i
  simpa [buildTable, h] using h2

/-- Witness: ID 5 defined in two sources compiled in order; the build
keeps the first source's message and discards the second's. -/
theorem c7_first_source_wins_witness :
    firstDefined [[(5, msgA)], [(5, msgB)]] 5 = some msgA ∧
    buildTable [[(5, msgA)], [(5, msgB)]] 5 = some msgA :=
  ⟨rfl, c7_first_source_wins [[(5, msgA)], [(5, msgB)]] 5 msgA rfl⟩

/-- C8: for a frame element with a valid even-length hex `data` string,
the fixed 8-byte payload is the decoded bytes copied from index 0 —
truncated to the first 8 when longer (silently, no error) and
zero-padded when shorter — and the batch decodes to the dispatch of
exactly that frame. -/
theorem c8_payload_truncation {α : Type} (table : MessageTable α) (idTok dataStr : String)
    (n : Nat) (decoded : List Nat)
    (hid : parseUint64 idTok.data = some n)
    (hhex : hexDecode dataStr.data = some decoded) :
    Decode table (singleFrameBatch idTok dataStr)
      = .ok (decodeDispatch table [⟨n % 2 ^ 32, frameData decoded⟩] []) ∧
    frameData decoded = decoded.take 8 ++ List.replicate (8 - decoded.length) 0 ∧
    (frameData decoded).length = 8 :=
  ⟨Decode_singleFrame table idTok dataStr n decoded hid hhex,
   frameData_eq decoded, frameData_length decoded⟩

/-- Witness: C8 at a 10-byte hex payload: the stored payload is exactly
the first 8 decoded bytes. -/
theorem c8_payload_truncation_witness :
    Decode noTable (singleFrameBatch "1" "0102030405060708090a")
      = .ok (decodeDispatch noTable [⟨1, frameData [1, 2, 3, 4, 5, 6, 7, 8, 9, 10]⟩] []) ∧
    frameData [1, 2, 3, 4, 5, 6, 7, 8, 9, 10] = [1, 2, 3, 4, 5, 6, 7, 8] := by
  have h := c8_payload_truncation noTable "1" "0102030405060708090a" 1
    [1, 2, 3, 4, 5, 6, 7, 8, 9, 10] rfl rfl
  exact ⟨by simpa using h.1, by simpa using h.2.1⟩

/-- C9: decoding is deterministic and does not mutate the converter's
message table: with the table threaded as explicit state, a call hands
the table back unchanged, a second call on the resulting state with the
same input returns an identical result, and the threaded result is the
pure `Decode` of the input. -/
theorem c9_decode_deterministic {α : Type} (c : MessageTable α) (j : Json) :
    (DecodeSt c j).2 = c ∧
    (DecodeSt (DecodeSt c j).2 j).1 = (DecodeSt c j).1 ∧
    (DecodeSt c j).1 = Decode c j := by
  simp [DecodeSt_eq]

/-- Witness: C9 at the empty-frames batch and the empty table. -/
theorem c9_decode_deterministic_witness :
    (DecodeSt noTable batchEmptyFrames).2 = noTable :=
  (c9_decode_deterministic noTable batchEmptyFrames).1

/-- C10 counterexample: the two `Decode` versions differ at the document
holding only an empty `frames` array: under the same (empty) message
table the legacy version succeeds with an empty result while the
fastjson version fails (nil-dereference panic on the absent `meta`). -/
theorem c10_not_equivalent_counterexample :
    legacyDecode stubFrameOfJson noTable framesOnlyBatch = .ok [] ∧
    Decode noTable framesOnlyBatch = .panics :=
  ⟨rfl, rfl⟩

/-- C10 (amended): the two implementations are not extensionally
equivalent — they share the dispatch loop, but for every message table
and every frame-element parser, the batch with an empty `frames` array
and no `meta` key succeeds under the legacy `Decode` and fails under the
fastjson `Decode`. -/
theorem c10_divergence {α : Type} (frameOfJson : Json → Option Frame)
    (table : MessageTable α) :
    legacyDecode frameOfJson table framesOnlyBatch = .ok [] ∧
    (Decode table framesOnlyBatch).isOk = false :=
  ⟨rfl, rfl⟩

/-- Witness: C10's divergence at the concrete element parser and the
empty table. -/
theorem c10_divergence_witness :
    legacyDecode stubFrameOfJson noTable framesOnlyBatch = .ok [] :=
  (c10_divergence stubFrameOfJson noTable).1

end EkuiperCan
